import Mathlib

/-!
Verification of the product-damage-detection UI (Next.js client page and
relay route) against its specification.  The client logic lives in
src/app/page.tsx, the relay endpoint in src/app/api/predict/route.ts.
JavaScript numbers are modelled as rationals, JS arrays as Lists, and the
React component state as an explicit state record with explicit
transition functions.
-/

/-- Bounding box coordinates (relative, 0-1); mirrors the BoundingBox type
of page.tsx. -/
structure BoundingBox where
  left : ℚ
  top : ℚ
  width : ℚ
  height : ℚ
deriving DecidableEq

/-- Prediction object returned by the backend; mirrors the Prediction type
of page.tsx. -/
structure Prediction where
  tagId : String
  tagName : String
  probability : ℚ
  boundingBox : BoundingBox
deriving DecidableEq

/-- Displayed pixel dimensions of the mounted image element
(img.width and img.height in getBoxStyle). -/
structure ImgDims where
  width : ℚ
  height : ℚ
deriving DecidableEq

/-- Result of getBoxStyle: either the non-rendering style
(display none, returned when imageRef.current is null) or an
absolutely positioned rectangle in pixels. -/
inductive BoxStyle where
  | hidden
  | rect (left top width height : ℚ)
deriving DecidableEq

/-- Embedding of getBoxStyle (page.tsx lines 107-120): when the image
element is not mounted (imageRef.current null) return the hidden style,
otherwise scale the relative box by the displayed image width and
height. -/
def getBoxStyle (img : Option ImgDims) (box : BoundingBox) : BoxStyle :=
  match img with
  | none => BoxStyle.hidden
  | some i =>
      BoxStyle.rect (box.left * i.width) (box.top * i.height)
        (box.width * i.width) (box.height * i.height)

/-- C1: for every BoundingBox and mounted image of displayed size W x H,
getBoxStyle returns the rectangle left*W, top*H, width*W, height*H; the
mapping is deterministic (equal inputs give equal rectangles), and scaling
the displayed width by k scales the mapped left and width by k. -/
theorem getBoxStyle_maps_linearly (box : BoundingBox) (W H k : ℚ) :
    getBoxStyle (some ⟨W, H⟩) box
      = BoxStyle.rect (box.left * W) (box.top * H) (box.width * W) (box.height * H)
    ∧ getBoxStyle (some ⟨W, H⟩) box = getBoxStyle (some ⟨W, H⟩) box
    ∧ getBoxStyle (some ⟨k * W, H⟩) box
      = BoxStyle.rect (k * (box.left * W)) (box.top * H)
          (k * (box.width * W)) (box.height * H) := by
  refine ⟨rfl, rfl, ?_⟩
  have h1 : box.left * (k * W) = k * (box.left * W) := by ring
  have h2 : box.width * (k * W) = k * (box.width * W) := by ring
  simp [getBoxStyle, h1, h2]

/-- C2 counterexample: a mounted image whose measured width and height are
zero does not give the hidden style; getBoxStyle computes a degenerate
rectangle against the zero size. -/
theorem getBoxStyle_zero_size_not_hidden :
    getBoxStyle (some ⟨0, 0⟩) ⟨1/10, 2/10, 3/10, 4/10⟩
        = BoxStyle.rect 0 0 0 0
    ∧ BoxStyle.rect 0 0 0 0 ≠ BoxStyle.hidden := by
  constructor
  · simp [getBoxStyle]
  · decide

/-- C2 amended: getBoxStyle produces the non-rendering hidden style exactly
when the image element reference is null (not mounted); for a mounted
element it always returns a computed rectangle, even when the measured
width or height is zero. -/
theorem getBoxStyle_hidden_iff_unmounted (img : Option ImgDims) (box : BoundingBox) :
    getBoxStyle img box = BoxStyle.hidden ↔ img = none := by
  cases img <;> simp [getBoxStyle]

/-- Sort mode of the detection list panel (page.tsx line 54). -/
inductive SortMode where
  | confidence
  | name
deriving DecidableEq

/-- View mode of the detection list panel (page.tsx line 55). -/
inductive ViewMode where
  | list
  | grid
deriving DecidableEq

/-- A user-selected file; only the filename is observed by the client
logic. -/
structure FileData where
  name : String
deriving DecidableEq

/-- Component state of the Home page (page.tsx lines 48-55): the useState
hooks gathered into one record. -/
structure UIState where
  imageUrl : Option String
  predictions : List Prediction
  loading : Bool
  error : Option String
  hoveredBoxIdx : Option Nat
  selectedBoxIdx : Option Nat
  sortBy : SortMode
  viewMode : ViewMode
deriving DecidableEq

/-- Model of URL.createObjectURL: an opaque local URL derived from the
file; its exact value is never inspected by the client logic. -/
def createObjectURL (f : FileData) : String :=
  "blob:" ++ f.name

/-- Embedding of the filename test on page.tsx line 78, the regular
expression test of a dot followed by png, jpg or jpeg at the end of the
name, case-insensitively: the name matches exactly when its lowercasing
ends with one of the three extensions. -/
def isValidFilename (name : String) : Bool :=
  let n := name.data.map Char.toLower
  (".png".data.isSuffixOf n) || (".jpg".data.isSuffixOf n) || (".jpeg".data.isSuffixOf n)

/-- The multipart request issued by handleFileChange on acceptance
(page.tsx lines 85-90): a POST of the file under field name file to the
relay endpoint. -/
structure UploadRequest where
  url : String
  method : String
  fieldName : String
  file : FileData
deriving DecidableEq

/-- Embedding of the synchronous start of handleFileChange (page.tsx
lines 73-90), up to the point the fetch is issued: clear error, clear
predictions, return early on a missing file, reject an invalid filename
with a validation error, otherwise set the preview URL, set loading and
issue the multipart request.  Returns the updated state together with
the issued request, if any. -/
def handleFileChangeStart (s : UIState) (file : Option FileData) :
    UIState × Option UploadRequest :=
  let s1 : UIState := { s with error := none, predictions := [] }
  match file with
  | none => (s1, none)
  | some f =>
      if !isValidFilename f.name then
        ({ s1 with error := some "Only PNG, JPG, and JPEG files are allowed." }, none)
      else
        ({ s1 with imageUrl := some (createObjectURL f), loading := true },
         some { url := "/api/predict", method := "POST", fieldName := "file", file := f })

/-- Nested predictions object of the backend payload (page.tsx lines
33-38). -/
structure InnerPredictions where
  id : String
  project : String
  iteration : String
  predictions : List Prediction
deriving DecidableEq

/-- API response schema for predictions (page.tsx lines 30-39). -/
structure PredictionResponse where
  success : Bool
  filename : String
  predictions : InnerPredictions
deriving DecidableEq

/-- Embedding of the success continuation of handleFileChange (page.tsx
lines 92-99): store the nested predictions filtered to probability
strictly above one half, and clear the loading flag (the finally
block). -/
def handleFileChangeSuccess (s : UIState) (resp : PredictionResponse) : UIState :=
  { s with
    predictions := resp.predictions.predictions.filter (fun p => 0.5 < p.probability),
    loading := false }

/-- C4 counterexample: starting a new upload does not clear hoveredIndex
and selectedIndex; at a concrete state with both set, both survive the
file-change transition, contradicting the claim that they are reset to
none. -/
theorem newUpload_keeps_stale_indices :
    ((handleFileChangeStart
        { imageUrl := some "blob:old", predictions := [], loading := false,
          error := some "old error", hoveredBoxIdx := some 1,
          selectedBoxIdx := some 2, sortBy := SortMode.confidence,
          viewMode := ViewMode.list }
        (some { name := "photo.png" })).1.hoveredBoxIdx ≠ none)
    ∧ ((handleFileChangeStart
        { imageUrl := some "blob:old", predictions := [], loading := false,
          error := some "old error", hoveredBoxIdx := some 1,
          selectedBoxIdx := some 2, sortBy := SortMode.confidence,
          viewMode := ViewMode.list }
        (some { name := "photo.png" })).1.selectedBoxIdx ≠ none) := by
  constructor <;> decide

/-- C4 amended: starting a new upload clears the error message and
empties the detection list, but leaves hoveredIndex and selectedIndex
untouched, so a stale index from the previous detection list survives
into the new upload; the error after the transition is either none or
the fresh validation message. -/
theorem newUpload_clears_error_and_predictions (s : UIState) (file : Option FileData) :
    (handleFileChangeStart s file).1.predictions = []
    ∧ (handleFileChangeStart s file).1.hoveredBoxIdx = s.hoveredBoxIdx
    ∧ (handleFileChangeStart s file).1.selectedBoxIdx = s.selectedBoxIdx
    ∧ ((handleFileChangeStart s file).1.error = none
       ∨ (handleFileChangeStart s file).1.error
           = some "Only PNG, JPG, and JPEG files are allowed.") := by
  cases file with
  | none => simp [handleFileChangeStart]
  | some f =>
      by_cases h : isValidFilename f.name <;>
        simp [handleFileChangeStart, h]

/-- A concrete default bounding box used by concrete test states. -/
def box0 : BoundingBox := { left := 1/10, top := 2/10, width := 3/10, height := 4/10 }

/-- Concrete initial component state: the useState initial values of
page.tsx lines 48-55. -/
def sInit : UIState :=
  { imageUrl := none, predictions := [], loading := false, error := none,
    hoveredBoxIdx := none, selectedBoxIdx := none,
    sortBy := SortMode.confidence, viewMode := ViewMode.list }

/-- C3: after a successful upload the stored detection list equals the
filter of the nested predictions array keeping exactly the entries with
probability strictly greater than one half, in original order (a
sublist); membership is characterised by the strict threshold, and any
entry at or below the threshold is excluded. -/
theorem predictions_filter_spec (s : UIState) (resp : PredictionResponse) :
    (handleFileChangeSuccess s resp).predictions
      = resp.predictions.predictions.filter (fun p => 0.5 < p.probability)
    ∧ (∀ p : Prediction,
        p ∈ (handleFileChangeSuccess s resp).predictions
          ↔ (p ∈ resp.predictions.predictions ∧ 0.5 < p.probability))
    ∧ (handleFileChangeSuccess s resp).predictions.Sublist resp.predictions.predictions
    ∧ (∀ p ∈ resp.predictions.predictions, ¬ (0.5 < p.probability) →
        p ∉ (handleFileChangeSuccess s resp).predictions) := by
  refine ⟨rfl, ?_, ?_, ?_⟩
  · intro p
    simp [handleFileChangeSuccess, List.mem_filter]
  · exact List.filter_sublist _
  · intro p _ hp hmem
    simp [handleFileChangeSuccess, List.mem_filter] at hmem
    exact hp hmem.2

/-- Concrete prediction with high confidence, from the spec scenario. -/
def dentPred : Prediction :=
  { tagId := "t1", tagName := "dent", probability := 92/100, boundingBox := box0 }

/-- Concrete prediction just above the threshold, from the spec
scenario. -/
def scratchPred : Prediction :=
  { tagId := "t2", tagName := "scratch", probability := 55/100, boundingBox := box0 }

/-- Concrete prediction exactly at the threshold. -/
def halfPred : Prediction :=
  { tagId := "t3", tagName := "half", probability := 1/2, boundingBox := box0 }

/-- Concrete prediction below the threshold, from the spec scenario. -/
def noDamagePred : Prediction :=
  { tagId := "t4", tagName := "no_damage", probability := 3/10, boundingBox := box0 }

/-- Concrete backend response holding the four predictions above. -/
def resp0 : PredictionResponse :=
  { success := true, filename := "photo.png",
    predictions :=
      { id := "i", project := "p", iteration := "it",
        predictions := [dentPred, scratchPred, halfPred, noDamagePred] } }

/-- C3 witness: on the concrete response the stored list is exactly the
two predictions above the threshold in original order, and the entry with
probability exactly one half is excluded, by the theorem. -/
theorem predictions_filter_spec_witness :
    (handleFileChangeSuccess sInit resp0).predictions = [dentPred, scratchPred]
    ∧ halfPred ∉ (handleFileChangeSuccess sInit resp0).predictions :=
  ⟨by with_unfolding_all decide,
   (predictions_filter_spec sInit resp0).2.2.2 halfPred (by with_unfolding_all decide)
     (by with_unfolding_all decide)⟩

/-- C8: a file whose name fails the extension test gets the validation
error and produces no request while leaving the loading flag unchanged;
a file whose name passes the test produces no validation error and
issues the multipart POST of the file under field name file to the relay
endpoint. -/
theorem upload_validation (s : UIState) (f : FileData) :
    (isValidFilename f.name = false →
      (handleFileChangeStart s (some f)).1.error
          = some "Only PNG, JPG, and JPEG files are allowed."
      ∧ (handleFileChangeStart s (some f)).2 = none
      ∧ (handleFileChangeStart s (some f)).1.loading = s.loading)
    ∧ (isValidFilename f.name = true →
      (handleFileChangeStart s (some f)).1.error = none
      ∧ (handleFileChangeStart s (some f)).2
          = some { url := "/api/predict", method := "POST",
                   fieldName := "file", file := f }) := by
  constructor
  · intro h
    simp [handleFileChangeStart, h]
  · intro h
    simp [handleFileChangeStart, h]

/-- C8 witness: uploading photo.gif yields the validation error, no
request and an unchanged loading flag; uploading photo.jpg yields no
validation error and the multipart request, all by the theorem at the
concrete inputs. -/
theorem upload_validation_witness :
    isValidFilename "photo.gif" = false
    ∧ (handleFileChangeStart sInit (some { name := "photo.gif" })).1.error
        = some "Only PNG, JPG, and JPEG files are allowed."
    ∧ (handleFileChangeStart sInit (some { name := "photo.gif" })).2 = none
    ∧ (handleFileChangeStart sInit (some { name := "photo.gif" })).1.loading = sInit.loading
    ∧ isValidFilename "photo.jpg" = true
    ∧ (handleFileChangeStart sInit (some { name := "photo.jpg" })).1.error = none
    ∧ (handleFileChangeStart sInit (some { name := "photo.jpg" })).2
        = some { url := "/api/predict", method := "POST", fieldName := "file",
                 file := { name := "photo.jpg" } } :=
  ⟨by decide,
   ((upload_validation sInit { name := "photo.gif" }).1 (by decide)).1,
   ((upload_validation sInit { name := "photo.gif" }).1 (by decide)).2.1,
   ((upload_validation sInit { name := "photo.gif" }).1 (by decide)).2.2,
   by decide,
   ((upload_validation sInit { name := "photo.jpg" }).2 (by decide)).1,
   ((upload_validation sInit { name := "photo.jpg" }).2 (by decide)).2⟩

/-- Embedding of the confidence sort (page.tsx line 63): the stable JS
array sort under the comparator that subtracts probabilities, i.e. the
stable sort under the relation putting a before b when the probability of
b is at most the probability of a (descending). -/
def sortByConfidence (l : List Prediction) : List Prediction :=
  l.mergeSort (fun a b => decide (b.probability ≤ a.probability))

/-- Embedding of the name sort (page.tsx line 65): the stable JS array
sort under localeCompare of the tag names, modelled by the total order on
strings (ascending). -/
def sortByName (l : List Prediction) : List Prediction :=
  l.mergeSort (fun a b => decide (a.tagName ≤ b.tagName))

/-- Embedding of the sortedPredictions memo (page.tsx lines 60-68): a
sorted copy of the stored predictions, chosen by the sort mode; the
stored array itself is never written. -/
def sortedPredictions (predictions : List Prediction) (sortBy : SortMode) :
    List Prediction :=
  match sortBy with
  | SortMode.confidence => sortByConfidence predictions
  | SortMode.name => sortByName predictions

/-- Stability of mergeSort along a predicate on which the order relation
is constantly true: the sorted list filtered by the predicate equals the
input filtered by the predicate, so elements tied under the sort key keep
their relative input order. -/
theorem mergeSort_filter_invariant {α : Type} (le : α → α → Bool)
    (htrans : ∀ a b c, le a b → le b c → le a c)
    (htotal : ∀ a b, le a b || le b a)
    (p : α → Bool) (hp : ∀ a b, p a → p b → le a b)
    (l : List α) : (l.mergeSort le).filter p = l.filter p := by
  have h1 : (l.filter p).Pairwise (fun a b => le a b) :=
    List.pairwise_of_forall_mem_list
      (fun a ha b hb => hp a b (List.of_mem_filter ha) (List.of_mem_filter hb))
  have h2 : (l.filter p).Sublist (l.mergeSort le) :=
    List.sublist_mergeSort htrans htotal h1 (List.filter_sublist l)
  have hself : (l.filter p).filter p = l.filter p :=
    List.filter_eq_self.mpr (fun a ha => List.of_mem_filter ha)
  have h3 : (l.filter p).Sublist ((l.mergeSort le).filter p) := by
    have := h2.filter p
    rwa [hself] at this
  have h4 : ((l.mergeSort le).filter p).length = (l.filter p).length :=
    ((l.mergeSort_perm le).filter p).length_eq
  exact (h3.eq_of_length h4.symm).symm

/-- C6: the confidence sort is descending in probability and the name
sort is ascending in tag name; both are permutations of the input, and
both are stable: restricting the sorted list to a fixed probability (for
the confidence sort) or to a fixed tag name (for the name sort) gives
the same sequence as restricting the input, so tied detections keep
their relative order. -/
theorem sorting_contract (l : List Prediction) :
    List.Pairwise (fun a b => b.probability ≤ a.probability) (sortByConfidence l)
    ∧ List.Pairwise (fun a b => a.tagName ≤ b.tagName) (sortByName l)
    ∧ (sortByConfidence l).Perm l
    ∧ (sortByName l).Perm l
    ∧ (∀ q : ℚ, (sortByConfidence l).filter (fun p => decide (p.probability = q))
        = l.filter (fun p => decide (p.probability = q)))
    ∧ (∀ n : String, (sortByName l).filter (fun p => decide (p.tagName = n))
        = l.filter (fun p => decide (p.tagName = n))) := by
  have ctrans : ∀ a b c : Prediction,
      decide (b.probability ≤ a.probability) → decide (c.probability ≤ b.probability) →
      decide (c.probability ≤ a.probability) := by
    intro a b c hab hbc
    simp only [decide_eq_true_eq] at *
    exact le_trans hbc hab
  have ctotal : ∀ a b : Prediction,
      decide (b.probability ≤ a.probability) || decide (a.probability ≤ b.probability) := by
    intro a b
    simp only [Bool.or_eq_true, decide_eq_true_eq]
    exact le_total _ _
  have ntrans : ∀ a b c : Prediction,
      decide (a.tagName ≤ b.tagName) → decide (b.tagName ≤ c.tagName) →
      decide (a.tagName ≤ c.tagName) := by
    intro a b c hab hbc
    simp only [decide_eq_true_eq] at *
    exact le_trans hab hbc
  have ntotal : ∀ a b : Prediction,
      decide (a.tagName ≤ b.tagName) || decide (b.tagName ≤ a.tagName) := by
    intro a b
    simp only [Bool.or_eq_true, decide_eq_true_eq]
    exact le_total _ _
  refine ⟨?_, ?_, List.mergeSort_perm l _, List.mergeSort_perm l _, ?_, ?_⟩
  · exact (List.sorted_mergeSort ctrans ctotal l).imp (fun h => by
      simpa using h)
  · exact (List.sorted_mergeSort ntrans ntotal l).imp (fun h => by
      simpa using h)
  · intro q
    refine mergeSort_filter_invariant _ ctrans ctotal _ ?_ l
    intro a b ha hb
    simp only [decide_eq_true_eq] at *
    rw [ha, hb]
  · intro n
    refine mergeSort_filter_invariant _ ntrans ntotal _ ?_ l
    intro a b ha hb
    simp only [decide_eq_true_eq] at *
    rw [ha, hb]

/-- Transition of the sort dropdown (page.tsx line 238): setSortBy only
replaces the sort mode. -/
def setSortBy (m : SortMode) (s : UIState) : UIState :=
  { s with sortBy := m }

/-- The detection list the panel displays: the sorted copy computed from
the stored predictions and the current sort mode (page.tsx lines
60-68). -/
def displayedPredictions (s : UIState) : List Prediction :=
  sortedPredictions s.predictions s.sortBy

/-- C7: switching the sort mode to confidence, then name, then
confidence again displays the same list as the first confidence sort,
and no step of the sequence changes the stored predictions array; the
displayed list is always recomputed from the unchanged stored array. -/
theorem sorting_nondestructive (s : UIState) :
    displayedPredictions
        (setSortBy SortMode.confidence
          (setSortBy SortMode.name (setSortBy SortMode.confidence s)))
      = displayedPredictions (setSortBy SortMode.confidence s)
    ∧ (setSortBy SortMode.confidence
        (setSortBy SortMode.name (setSortBy SortMode.confidence s))).predictions
      = s.predictions
    ∧ (setSortBy SortMode.name (setSortBy SortMode.confidence s)).predictions
      = s.predictions
    ∧ (setSortBy SortMode.confidence s).predictions = s.predictions
    ∧ (∀ m : SortMode,
        displayedPredictions (setSortBy m s) = sortedPredictions s.predictions m) :=
  ⟨rfl, rfl, rfl, rfl, fun _ => rfl⟩

/-- A prediction object together with its allocation identity.  The
predictions held in state are distinct JavaScript objects produced by
parsing the response JSON, and Array.indexOf compares objects by strict
equality, i.e. by reference; the ref field models that object identity,
and two PredRef values are equal exactly when they are the same
object. -/
structure PredRef where
  ref : Nat
  val : Prediction
deriving DecidableEq

/-- The sorted view of the stored prediction objects (page.tsx lines
60-68), at the object level: the stable sort of the stored array copy
under the comparator selected by the sort mode. -/
def sortedRefs (preds : List PredRef) (mode : SortMode) : List PredRef :=
  match mode with
  | SortMode.confidence =>
      preds.mergeSort (fun a b => decide (b.val.probability ≤ a.val.probability))
  | SortMode.name =>
      preds.mergeSort (fun a b => decide (a.val.tagName ≤ b.val.tagName))

/-- Embedding of predictions.indexOf(pred) on page.tsx line 254: the
first position of the clicked object in the stored array under strict
(reference) equality. -/
def originalIdx (preds : List PredRef) (pred : PredRef) : Nat :=
  preds.indexOf pred

/-- Embedding of the overlay click transition (page.tsx lines 366-368):
toggle the selected index at the overlay position, which is the position
in the stored array. -/
def overlayClick (i : Nat) (sel : Option Nat) : Option Nat :=
  if sel = some i then none else some i

/-- Embedding of the list-panel click transition (page.tsx lines
254-260): recover the original index of the clicked entry with indexOf,
then toggle the selected index at that original index. -/
def listClick (preds : List PredRef) (pred : PredRef) (sel : Option Nat) : Option Nat :=
  if sel = some (originalIdx preds pred) then none else some (originalIdx preds pred)

/-- C5: a click on detection i toggles the selection, clicking i twice
from a state where i is not selected first selects i and then restores
the selection to none, at most one index is ever selected (the selection
is a single optional index), and the list-panel click on an entry whose
recovered original index is i produces the same state as the overlay
click on index i, from every selection state. -/
theorem click_toggle_spec (preds : List PredRef) (pred : PredRef) (i : Nat)
    (sel : Option Nat) (hidx : originalIdx preds pred = i) (hsel : sel ≠ some i) :
    (∀ s : Option Nat, listClick preds pred s = overlayClick i s)
    ∧ (∀ s : Option Nat, overlayClick i s = if s = some i then none else some i)
    ∧ overlayClick i sel = some i
    ∧ overlayClick i (overlayClick i sel) = none := by
  subst hidx
  refine ⟨fun s => rfl, fun s => rfl, ?_, ?_⟩
  · simp [overlayClick, hsel]
  · simp [overlayClick, hsel]

/-- C5 witness: on a one-element stored list, clicking the single entry
from the empty selection selects index 0 through both surfaces, and
clicking it again deselects, by the theorem at the concrete input. -/
theorem click_toggle_spec_witness :
    originalIdx [⟨0, dentPred⟩] ⟨0, dentPred⟩ = 0
    ∧ ((none : Option Nat) ≠ some 0)
    ∧ listClick [⟨0, dentPred⟩] ⟨0, dentPred⟩ none = overlayClick 0 none
    ∧ overlayClick 0 none = some 0
    ∧ overlayClick 0 (overlayClick 0 none) = none :=
  ⟨by with_unfolding_all decide, by decide,
   (click_toggle_spec [⟨0, dentPred⟩] ⟨0, dentPred⟩ 0 none
      (by with_unfolding_all decide) (by decide)).1 none,
   (click_toggle_spec [⟨0, dentPred⟩] ⟨0, dentPred⟩ 0 none
      (by with_unfolding_all decide) (by decide)).2.2.1,
   (click_toggle_spec [⟨0, dentPred⟩] ⟨0, dentPred⟩ 0 none
      (by with_unfolding_all decide) (by decide)).2.2.2⟩

/-- C10 amended: indexOf compares by strict (reference) equality, and the
prediction objects in state are pairwise distinct references, so every
entry of the sorted view recovers its exact original position: the
recovered index points back to the clicked object itself, and it is the
only position of that object in the stored array; in particular a
detection that is value-equal to an earlier one is still addressable
from the list panel. -/
theorem listPanel_index_recovery (preds : List PredRef) (mode : SortMode)
    (pred : PredRef) (hnd : (preds.map PredRef.ref).Nodup)
    (hmem : pred ∈ sortedRefs preds mode) :
    preds[originalIdx preds pred]? = some pred
    ∧ (∀ j : Nat, preds[j]? = some pred → j = originalIdx preds pred) := by
  have hmem2 : pred ∈ preds := by
    cases mode <;> exact List.mem_mergeSort.mp hmem
  have hlt : originalIdx preds pred < preds.length :=
    List.indexOf_lt_length.mpr hmem2
  have hget : preds[originalIdx preds pred] = pred :=
    List.getElem_indexOf hlt
  have hnodup : preds.Nodup := List.Nodup.of_map PredRef.ref hnd
  constructor
  · rw [List.getElem?_eq_getElem hlt, hget]
  · intro j hj
    have hjlt : j < preds.length := by
      by_contra hge
      rw [List.getElem?_eq_none (Nat.le_of_not_lt hge)] at hj
      exact Option.noConfusion hj
    have hjget : preds[j] = pred := by
      rw [List.getElem?_eq_getElem hjlt] at hj
      exact Option.some.inj hj
    have := List.indexOf_getElem hnodup j hjlt
    rw [hjget] at this
    exact this.symm

/-- Stored list with two value-equal prediction objects at positions 0
and 1; the two entries are distinct references. -/
def dupPreds : List PredRef := [⟨0, dentPred⟩, ⟨1, dentPred⟩]

/-- C10 counterexample: with two value-equal detections at positions 0
and 1, the sorted view still lists the second object at view position 1
(the confidence sort is stable on the tie), and its list-panel entry
recovers original index 1, not the index 0 of the first value-equal
occurrence claimed; the later duplicate is addressable. -/
theorem listPanel_duplicate_counterexample :
    (sortedRefs dupPreds SortMode.confidence).getD 1 ⟨0, dentPred⟩ = ⟨1, dentPred⟩
    ∧ originalIdx dupPreds ⟨1, dentPred⟩ = 1
    ∧ (1 : Nat) ≠ 0 := by
  have hsorted : sortedRefs dupPreds SortMode.confidence = dupPreds := by
    show List.mergeSort dupPreds _ = dupPreds
    apply List.mergeSort_of_sorted
    simp [dupPreds, List.pairwise_cons]
  refine ⟨?_, ?_, by decide⟩
  · rw [hsorted]
    with_unfolding_all decide
  · with_unfolding_all decide

/-- C10 witness: on the concrete two-element duplicate list the theorem
applies, recovering position 1 for the second object. -/
theorem listPanel_index_recovery_witness :
    (dupPreds.map PredRef.ref).Nodup
    ∧ dupPreds[originalIdx dupPreds ⟨1, dentPred⟩]? = some ⟨1, dentPred⟩ :=
  ⟨by with_unfolding_all decide,
   (listPanel_index_recovery dupPreds SortMode.confidence ⟨1, dentPred⟩
      (by with_unfolding_all decide)
      (by simp [sortedRefs, List.mem_mergeSort, dupPreds])).1⟩

/-- A value of a multipart form field: either a plain string part or a
file part. -/
inductive FormValue where
  | str (s : String)
  | file (f : FileData)
deriving DecidableEq

/-- The backend HTTP response as observed by the relay route: the ok
flag, the status code, the content-type header if present, and the body
text.  When the content type is JSON the body is the serialized JSON
payload, and re-serializing the parsed payload is modelled as the
identity on it. -/
structure BackendResponse where
  ok : Bool
  status : Nat
  contentType : Option String
  body : String
deriving DecidableEq

/-- Body of a relay response: either one of the fixed error objects of
the route, the passthrough of the backend JSON payload, or the
passthrough of the backend raw text. -/
inductive RelayBody where
  | errorJson (error : String)
  | json (data : String)
  | text (t : String)
deriving DecidableEq

/-- An HTTP response produced by the relay route. -/
structure RelayResponse where
  status : Nat
  body : RelayBody
deriving DecidableEq

/-- Containment of a character sequence in another: the pattern is a
prefix of some suffix. -/
def charSeqIn (pat : List Char) : List Char → Bool
  | [] => pat.isEmpty
  | c :: tl => pat.isPrefixOf (c :: tl) || charSeqIn pat tl

/-- Model of the JS string includes test used on route.ts line 31:
substring containment of the pattern in the string. -/
def stringIncludes (s pat : String) : Bool :=
  charSeqIn pat.data s.data

/-- Embedding of the POST handler of the relay route
(src/app/api/predict/route.ts lines 3-38).  The first component is the
response; the second records whether the backend was contacted.  A
missing file field or a plain-string field yields 400 with the fixed
error object and no backend call; a non-ok backend response yields 500
with the fixed error object; an ok backend response with a JSON content
type yields the backend JSON payload (NextResponse.json, status 200); an
ok backend response with any other content type yields the raw backend
text under the backend status. -/
def relayPOST (fileField : Option FormValue) (backend : BackendResponse) :
    RelayResponse × Bool :=
  match fileField with
  | none => ({ status := 400, body := RelayBody.errorJson "No file uploaded" }, false)
  | some (FormValue.str _) =>
      ({ status := 400, body := RelayBody.errorJson "No file uploaded" }, false)
  | some (FormValue.file _) =>
      let contentType := backend.contentType.getD ""
      if !backend.ok then
        ({ status := 500, body := RelayBody.errorJson "Backend error" }, true)
      else if stringIncludes contentType "application/json" then
        ({ status := 200, body := RelayBody.json backend.body }, true)
      else
        ({ status := backend.status, body := RelayBody.text backend.body }, true)

/-- C9: the relay answers 400 with the fixed no-file error object and
without contacting the backend when the file field is missing or is a
plain string; it answers 500 with the fixed backend-error object when
the backend response is not ok; on an ok backend response it passes the
JSON payload through when the content type contains application/json,
and otherwise passes the raw text through under the original backend
status code. -/
theorem relay_contract (backend : BackendResponse) (f : FileData) (v : String) :
    relayPOST none backend
      = ({ status := 400, body := RelayBody.errorJson "No file uploaded" }, false)
    ∧ relayPOST (some (FormValue.str v)) backend
      = ({ status := 400, body := RelayBody.errorJson "No file uploaded" }, false)
    ∧ (backend.ok = false →
        relayPOST (some (FormValue.file f)) backend
          = ({ status := 500, body := RelayBody.errorJson "Backend error" }, true))
    ∧ (backend.ok = true →
        stringIncludes (backend.contentType.getD "") "application/json" = true →
        relayPOST (some (FormValue.file f)) backend
          = ({ status := 200, body := RelayBody.json backend.body }, true))
    ∧ (backend.ok = true →
        stringIncludes (backend.contentType.getD "") "application/json" = false →
        relayPOST (some (FormValue.file f)) backend
          = ({ status := backend.status, body := RelayBody.text backend.body }, true)) := by
  refine ⟨rfl, rfl, ?_, ?_, ?_⟩
  · intro h
    simp [relayPOST, h]
  · intro h hct
    simp [relayPOST, h, hct]
  · intro h hct
    simp [relayPOST, h, hct]

/-- Concrete ok backend response with a JSON content type. -/
def backendJsonOk : BackendResponse :=
  { ok := true, status := 200,
    contentType := some "application/json; charset=utf-8",
    body := "\x7b\x7d" }

/-- Concrete failed backend response. -/
def backendFail : BackendResponse :=
  { ok := false, status := 502, contentType := some "text/plain", body := "bad gateway" }

/-- Concrete ok backend response with a plain-text content type and a
non-200 status. -/
def backendTextOk : BackendResponse :=
  { ok := true, status := 201, contentType := some "text/plain", body := "created" }

/-- C9 witness: the theorem applied at concrete inputs covers all four
branches: missing field, backend failure, JSON passthrough, and raw-text
passthrough under the backend status 201. -/
theorem relay_contract_witness :
    relayPOST none backendJsonOk
      = ({ status := 400, body := RelayBody.errorJson "No file uploaded" }, false)
    ∧ relayPOST (some (FormValue.file { name := "photo.png" })) backendFail
      = ({ status := 500, body := RelayBody.errorJson "Backend error" }, true)
    ∧ relayPOST (some (FormValue.file { name := "photo.png" })) backendJsonOk
      = ({ status := 200, body := RelayBody.json backendJsonOk.body }, true)
    ∧ relayPOST (some (FormValue.file { name := "photo.png" })) backendTextOk
      = ({ status := 201, body := RelayBody.text backendTextOk.body }, true) :=
  ⟨(relay_contract backendJsonOk { name := "photo.png" } "x").1,
   (relay_contract backendFail { name := "photo.png" } "x").2.2.1 (by decide),
   (relay_contract backendJsonOk { name := "photo.png" } "x").2.2.2.1 (by decide)
     (by decide),
   (relay_contract backendTextOk { name := "photo.png" } "x").2.2.2.2 (by decide)
     (by decide)⟩
